import Mathlib

/-!
Shallow embedding of `src/main.go` (the `check_graphite` Nagios/op5 probe) and
proofs about its metric-reduction and threshold-classification pipeline.

Modelling conventions:
* Go `float64` metric values are embedded as `ℚ`.  Every comparison, min/max
  fold and the single divisions performed by the program are exact on the
  rationals corresponding to the floats involved, so order and equality facts
  transfer; NaN/Inf inputs are outside this model.
* Go `time.Time` values produced by `time.Parse(G_DATEFORMAT, _)` are embedded
  as a calendar record `DateTime`; `time.Time.After` is embedded as comparison
  of a mixed-radix key that is strictly monotone in calendar order.
* The Go `map[string]*Metric` is embedded as an association list with unique
  keys (`mapGet`/`mapSet`).
* `sort.Sort` (resp. `sort.Sort(sort.Reverse _)`) guarantees a permutation of
  the input that is non-decreasing (resp. non-increasing) in the `Less` key
  (src/main.go lines 165-167 sort on the `Value` field); it is embedded as
  `List.insertionSort` with the corresponding total comparison, one concrete
  sorted-permutation implementation of the unspecified unstable sort.
-/

/-! ## Constants (src/main.go lines 20-40) -/

def CMP_LT : String := "lt"

def CMP_GT : String := "gt"

def S_OK : String := "OK"

def S_WARNING : String := "WARNING"

def S_CRITICAL : String := "CRITICAL"

def S_UNKNOWN : String := "UNKNOWN"

def E_OK : Nat := 0

def E_WARNING : Nat := 1

def E_CRITICAL : Nat := 2

def E_UNKNOWN : Nat := 3

/-- The URL construction `fmt.Sprintf(URL_TMPL, prot, host, port, mpath, period)`
performed at src/main.go line 323, with
`URL_TMPL = "%s://%s:%d/render?target=%s&amp;format=csv&amp;from=-%s"`
(line 28, the `&amp;` sequences are literal in the source string). -/
def sprintf_URL_TMPL (prot host : String) (port : Int) (mpath period : String) : String :=
  prot ++ "://" ++ host ++ ":" ++ toString port ++ "/render?target=" ++ mpath
    ++ "&amp;format=csv&amp;from=-" ++ period

/-! ## Data model -/

/-- Calendar timestamp as parsed by `time.Parse(G_DATEFORMAT, _)` with layout
`"2006-01-02 15:04:05"`. -/
structure DateTime where
  year : Nat
  month : Nat
  day : Nat
  hour : Nat
  minute : Nat
  second : Nat
deriving DecidableEq, Repr

/-- Mixed-radix encoding of a `DateTime`; each radix strictly exceeds the range
Go's parser admits for the corresponding field (month ≤ 12 < 13, day ≤ 31 < 32,
hour < 24, minute < 60, second < 60), so on parsed timestamps the key order is
exactly the instant order of the underlying `time.Time`. -/
def DateTime.key (t : DateTime) : Nat :=
  ((((t.year * 13 + t.month) * 32 + t.day) * 24 + t.hour) * 60 + t.minute) * 60 + t.second

/-- Model of Go `time.Time.After`: strictly later than. -/
def DateTime.After (t u : DateTime) : Bool :=
  decide (u.key < t.key)

/-- `Metric` (src/main.go lines 44-48): one (path, timestamp, value) sample. -/
structure Metric where
  Path : String
  TS : DateTime
  Value : ℚ
deriving DecidableEq, Repr

/-- `Metrics` (line 50): a slice of metrics. -/
abbrev Metrics := List Metric

/-! ## Threshold comparison and partitioning -/

/-- `checkIf` (src/main.go lines 209-214). -/
def checkIf (condition : String) (val threshold : ℚ) : Bool :=
  if condition = CMP_GT then decide (val ≥ threshold) else decide (val ≤ threshold)

/-- Comparison used to model `sort.Sort` on `Metrics`: non-strict version of
`Metrics.Less` (src/main.go lines 165-167), which compares the `Value` fields. -/
def valueLe (a b : Metric) : Prop :=
  a.Value ≤ b.Value

/-- Comparison used to model `sort.Sort(sort.Reverse _)` on `Metrics`: the
flipped comparison on the `Value` fields. -/
def valueGe (a b : Metric) : Prop :=
  b.Value ≤ a.Value

instance : DecidableRel valueLe := fun a b => inferInstanceAs (Decidable (a.Value ≤ b.Value))

instance : DecidableRel valueGe := fun a b => inferInstanceAs (Decidable (b.Value ≤ a.Value))

instance : IsTotal Metric valueLe := ⟨fun a b => le_total a.Value b.Value⟩

instance : IsTotal Metric valueGe := ⟨fun a b => le_total b.Value a.Value⟩

instance : IsTrans Metric valueLe := ⟨fun _ _ _ h h' => le_trans h h'⟩

instance : IsTrans Metric valueGe := ⟨fun _ _ _ h h' => le_trans h' h⟩

/-- The loop body of `Metrics.FilterOffenders` (src/main.go lines 91-99):
append each metric to exactly one of the (ok, warning, critical) slices,
testing the critical threshold first. -/
def filterStep (condition : String) (warn crit : ℚ)
    (acc : Metrics × Metrics × Metrics) (m : Metric) : Metrics × Metrics × Metrics :=
  if checkIf condition m.Value crit then (acc.1, acc.2.1, acc.2.2 ++ [m])
  else if checkIf condition m.Value warn then (acc.1, acc.2.1 ++ [m], acc.2.2)
  else (acc.1 ++ [m], acc.2.1, acc.2.2)

/-- `Metrics.FilterOffenders` (src/main.go lines 87-110): split a slice of
metrics into (ok, warning, critical) against the thresholds, then sort each
part by value, descending when the condition is `gt`, ascending otherwise. -/
def Metrics.FilterOffenders (ms : Metrics) (condition : String) (warn crit : ℚ) :
    Metrics × Metrics × Metrics :=
  let p := ms.foldl (filterStep condition warn crit) ([], [], [])
  if condition = CMP_GT then
    (p.1.insertionSort valueGe, p.2.1.insertionSort valueGe, p.2.2.insertionSort valueGe)
  else
    (p.1.insertionSort valueLe, p.2.1.insertionSort valueLe, p.2.2.insertionSort valueLe)

/-! ## Aggregator -/

/-- `Metrics.Max` (src/main.go lines 113-121): fold starting from the zero
value of `float64`, keeping any strictly larger element value. -/
def Metrics.Max (ms : Metrics) : ℚ :=
  ms.foldl (fun mx m => if m.Value > mx then m.Value else mx) 0

/-- `Metrics.Min` (src/main.go lines 124-132): same fold downwards, but the
accumulator starts at `ms.Max`. -/
def Metrics.Min (ms : Metrics) : ℚ :=
  ms.foldl (fun mn m => if m.Value < mn then m.Value else mn) ms.Max

/-- `Metrics.Avg` (src/main.go lines 135-145). -/
def Metrics.Avg (ms : Metrics) : ℚ :=
  if ms.length = 0 then 0
  else ms.foldl (fun total m => total + m.Value) 0 / (ms.length : ℚ)

/-! ## Deduplication (src/main.go `Metric.Latest` and the map loop in `parse`) -/

/-- `Metric.Latest` (src/main.go lines 148-153): of the receiver and the
argument, return the receiver only when its timestamp is strictly later. -/
def Metric.Latest (m nm : Metric) : Metric :=
  if m.TS.After nm.TS then m else nm

/-- Lookup in the association-list model of Go's `map[string]*Metric`. -/
def mapGet (mm : List (String × Metric)) (p : String) : Option Metric :=
  match mm with
  | [] => none
  | e :: t => if e.1 = p then some e.2 else mapGet t p

/-- Update/insert in the association-list model of Go's `map[string]*Metric`. -/
def mapSet (mm : List (String × Metric)) (p : String) (m : Metric) :
    List (String × Metric) :=
  match mm with
  | [] => [(p, m)]
  | e :: t => if e.1 = p then (p, m) :: t else e :: mapSet t p m

/-- One iteration of the deduplicating map loop in `parse`
(src/main.go lines 270-275): the incoming metric `m` is the receiver of
`Latest`, the stored metric `cm` the argument. -/
def parseStep (mm : List (String × Metric)) (m : Metric) : List (String × Metric) :=
  match mapGet mm m.Path with
  | some cm => mapSet mm m.Path (m.Latest cm)
  | none => mapSet mm m.Path m

/-- The whole deduplication pass of `parse` over the successfully decoded
metrics, in arrival order. -/
def parseDedup (recs : List Metric) : List (String × Metric) :=
  recs.foldl parseStep []

/-- Reference fold: the metric retained from a stream of same-path metrics,
new metric winning only on a strictly later timestamp. -/
def keepLatest (l : List Metric) : Option Metric :=
  l.foldl (fun acc m => match acc with
    | none => some m
    | some cm => some (m.Latest cm)) none

/-! ## Exit-code selection (src/main.go lines 422-433) -/

/-- The final evaluate-print-exit chain of `run_check` (src/main.go lines
422-433): each `nagios_result` call exits the process, so the chain selects
the first non-empty partition in the order critical, warning, ok, and falls
through to unknown. -/
def exit_priority (o w c : Metrics) : Nat :=
  if c.length > 0 then E_CRITICAL
  else if w.length > 0 then E_WARNING
  else if o.length > 0 then E_OK
  else E_UNKNOWN

/-- Exit code of a successful, non-timed-out run on a deduplicated metric set:
partition with `FilterOffenders`, then pick by `exit_priority`. -/
def run_check_exitcode (ms : Metrics) (condition : String) (warn crit : ℚ) : Nat :=
  let r := ms.FilterOffenders condition warn crit
  exit_priority r.1 r.2.1 r.2.2

/-! ## CSV record decoding (src/main.go `NewMetricFromCSV`, lines 180-206) -/

/-- Numeric value of a list of decimal digit characters. -/
def natOfDigits (cs : List Char) : Nat :=
  cs.foldl (fun n c => n * 10 + (c.toNat - 48)) 0

/-- Leap-year rule used by Go's `time` package day validation. -/
def isLeapYear (y : Nat) : Bool :=
  (y % 4 = 0 && y % 100 != 0) || (y % 400 = 0)

/-- Days in a month, as used by Go's `time.Parse` day-range validation. -/
def daysIn (month year : Nat) : Nat :=
  if month = 2 then (if isLeapYear year then 29 else 28)
  else if month = 4 ∨ month = 6 ∨ month = 9 ∨ month = 11 then 30
  else 31

/-- Models `time.Parse(G_DATEFORMAT, s)` with the fixed layout
`"2006-01-02 15:04:05"` (src/main.go lines 31 and 192): four year digits,
zero-padded two-digit month, day, hour, minute and second, the literal
separators, nothing before or after, and Go's range validation (month 1-12,
day 1 to days-in-month, hour ≤ 23, minute ≤ 59, second ≤ 59).  Go's
acceptance of a sign inside the 4-byte year field is not modelled; no claim
depends on it. -/
def timeParse (s : String) : Option DateTime :=
  match s.data with
  | [y1, y2, y3, y4, '-', o1, o2, '-', d1, d2, ' ', h1, h2, ':', i1, i2, ':', c1, c2] =>
    if ([y1, y2, y3, y4, o1, o2, d1, d2, h1, h2, i1, i2, c1, c2].all Char.isDigit) then
      let y := natOfDigits [y1, y2, y3, y4]
      let mo := natOfDigits [o1, o2]
      let d := natOfDigits [d1, d2]
      let h := natOfDigits [h1, h2]
      let mi := natOfDigits [i1, i2]
      let sec := natOfDigits [c1, c2]
      if 1 ≤ mo ∧ mo ≤ 12 ∧ 1 ≤ d ∧ d ≤ daysIn mo y ∧ h ≤ 23 ∧ mi ≤ 59 ∧ sec ≤ 59
      then some ⟨y, mo, d, h, mi, sec⟩
      else none
    else none
  | _ => none

/-- Strips a leading sign, reporting whether it was `-`. -/
def splitSign (cs : List Char) : Bool × List Char :=
  match cs with
  | '-' :: t => (true, t)
  | '+' :: t => (false, t)
  | _ => (false, cs)

/-- Models `strconv.ParseFloat(s, 64)` (src/main.go line 200) on decimal
syntax: optional sign, digits with at most one decimal point (at least one
digit in the mantissa), and an optional decimal exponent.  The result is the
exact rational value of the decimal literal; binary64 rounding, the inf/NaN
forms, hexadecimal floats and digit-separating underscores are outside this
rational model, and no claim exercises them. -/
def parseFloat (s : String) : Option ℚ :=
  let sp := splitSign s.data
  let ds := sp.2.takeWhile Char.isDigit
  let r1 := sp.2.dropWhile Char.isDigit
  let dotted : Bool := match r1 with | '.' :: _ => true | _ => false
  let rest1 := match r1 with | '.' :: t => t | _ => r1
  let fs := if dotted then rest1.takeWhile Char.isDigit else []
  let r2 := if dotted then rest1.dropWhile Char.isDigit else r1
  if ds.length + fs.length = 0 then none
  else
    let num : Int := natOfDigits (ds ++ fs)
    let num := if sp.1 then -num else num
    let den : Nat := 10 ^ fs.length
    match r2 with
    | [] => some (mkRat num den)
    | e :: t =>
      if e = 'e' ∨ e = 'E' then
        let esp := splitSign t
        if esp.2 ≠ [] ∧ esp.2.all Char.isDigit then
          let ex := natOfDigits esp.2
          some (if esp.1 then mkRat num (den * 10 ^ ex) else mkRat (num * 10 ^ ex) den)
        else none
      else none

/-- `NewMetric` (src/main.go lines 171-177). -/
def NewMetric (path : String) (ts : DateTime) (val : ℚ) : Metric :=
  { Path := path, Value := val, TS := ts }

/-- `NewMetricFromCSV` (src/main.go lines 180-206): length check, empty-path
check, timestamp parse, empty-value check, float parse, in that order. -/
def NewMetricFromCSV (csv : List String) : Except String Metric :=
  match csv with
  | [p, tsStr, valStr] =>
    if p = "" then Except.error "Empty metric path"
    else
      match timeParse tsStr with
      | none => Except.error "cannot parse as G_DATEFORMAT"
      | some ts =>
        if valStr = "" then Except.error "Empty value field"
        else
          match parseFloat valStr with
          | none => Except.error "invalid float syntax"
          | some val => Except.ok (NewMetric p ts val)
  | _ => Except.error "CSV record length != 3"

/-! ## Response-body pipeline (src/main.go `parse`, lines 236-284) -/

/-- Splits a character list at every occurrence of the separator. -/
def splitChar (sep : Char) : List Char → List (List Char)
  | [] => [[]]
  | c :: t =>
    match splitChar sep t with
    | [] => [[]]
    | h :: r => if c = sep then [] :: h :: r else (c :: h) :: r

/-- Models `encoding/csv` record reading for a body without quoted fields:
newline-terminated lines (empty lines are skipped by the reader), each split
at commas. -/
def csvRecords (body : String) : List (List String) :=
  ((splitChar '\n' body.data).filter (fun line => line ≠ [])).map
    (fun line => (splitChar ',' line).map String.mk)

/-- The decode-and-deduplicate loop of `parse` (src/main.go lines 254-281) on
an error-free CSV stream: records that fail `NewMetricFromCSV` are skipped,
the rest pass through the `mmap` deduplication; the final metric set is the
map's values. -/
def parseBody (body : String) : Metrics :=
  ((csvRecords body).foldl
    (fun mm rec =>
      match NewMetricFromCSV rec with
      | Except.error _ => mm
      | Except.ok m => parseStep mm m)
    []).map (fun e => e.2)

/-! ## Report formatting (src/main.go `genperf`/`nagios_result`, lines 368-420) -/

/-- Fixed-point decimal rendering of a rational with `d` fractional digits,
rounding half away from zero, written on the reduced numerator/denominator so
that it evaluates by kernel reduction:
`(2*|num|*10^d + den) / (2*den) = ⌊|q|*10^d + 1/2⌋` for `q = num/den`.
This models the Go `fmt` verbs `%f` (`d = 6`) and `%.02f` (`d = 2`), which
round half to even: the two agree whenever `q*10^d` is an integer, which holds
for every concrete value formatted in this development. -/
def fmtFixed (d : Nat) (q : ℚ) : String :=
  let sgn := if q.num < 0 then "-" else ""
  let n : Nat := (2 * q.num.natAbs * 10 ^ d + q.den) / (2 * q.den)
  let ip := n / 10 ^ d
  let fp := n % 10 ^ d
  let fpStr := toString fp
  sgn ++ toString ip ++ "." ++ String.mk (List.replicate (d - fpStr.length) '0') ++ fpStr

/-- The direction word chosen in `nagios_result` (src/main.go lines 392-397). -/
def direction_word (condition : String) : String :=
  if condition = CMP_LT then "below" else "above"

/-- `genperf`'s `_fmt` (src/main.go lines 368-388): the performance-data
string `"|value=%f;%f;%f;%f;%f response_time=%fs;%f;%f; num_matching_metrics=%d;"`
instantiated with the chosen partition's average, the two thresholds, the
partition's min and max, the round-trip time, the derived warning time
(half the timeout), the timeout and the partition's size. -/
def genperf_fmt (avg warn crit lower upper rt rt_warn tmout : ℚ) (count : Nat) : String :=
  "|value=" ++ fmtFixed 6 avg ++ ";" ++ fmtFixed 6 warn ++ ";" ++ fmtFixed 6 crit ++ ";"
    ++ fmtFixed 6 lower ++ ";" ++ fmtFixed 6 upper
    ++ " response_time=" ++ fmtFixed 6 rt ++ "s;" ++ fmtFixed 6 rt_warn ++ ";"
    ++ fmtFixed 6 tmout ++ "; num_matching_metrics=" ++ toString count ++ ";"

/-- The WARNING-status summary message built by `nagios_result`
(src/main.go lines 398-407): the template
`"%d metrics are %s the %s threshold of %.02f %s"` instantiated with the
warning partition's size, the direction word, `strings.ToLower(S_WARNING)`
(the literal `"warning"`) and the warning threshold, followed by the
performance data for the warning partition. -/
def nagios_msg_warning (condition : String) (warn crit : ℚ) (w : Metrics)
    (rt tmout : ℚ) : String :=
  toString w.length ++ " metrics are " ++ direction_word condition ++ " the "
    ++ "warning" ++ " threshold of " ++ fmtFixed 2 warn ++ " "
    ++ genperf_fmt w.Avg warn crit w.Min w.Max rt (tmout / 2) tmout w.length

/-- Substring occurrence, used to state that a summary message contains a
given fragment. -/
def strContains (s pat : String) : Prop :=
  ∃ a b : String, s = a ++ pat ++ b

/-! ## Helper predicates and lemmas for the partitioner -/

/-- The spec's notion of a value satisfying the threshold comparison:
`value >= threshold` in greater-than mode, `value <= threshold` in
less-than mode. -/
def satisfies (condition : String) (v t : ℚ) : Prop :=
  if condition = CMP_GT then v ≥ t else v ≤ t

instance (condition : String) (v t : ℚ) : Decidable (satisfies condition v t) := by
  unfold satisfies
  split <;> infer_instance

theorem checkIf_eq_true_iff (condition : String) (v t : ℚ) :
    checkIf condition v t = true ↔ satisfies condition v t := by
  unfold checkIf satisfies
  split <;> simp

/-- Predicate selecting the critical partition. -/
def critP (condition : String) (crit : ℚ) (m : Metric) : Bool :=
  checkIf condition m.Value crit

/-- Predicate selecting the warning partition. -/
def warnP (condition : String) (warn crit : ℚ) (m : Metric) : Bool :=
  !checkIf condition m.Value crit && checkIf condition m.Value warn

/-- Predicate selecting the ok partition. -/
def okP (condition : String) (warn crit : ℚ) (m : Metric) : Bool :=
  !checkIf condition m.Value crit && !checkIf condition m.Value warn

theorem foldl_filterStep (condition : String) (warn crit : ℚ) :
    ∀ (ms : Metrics) (o0 w0 c0 : Metrics),
      ms.foldl (filterStep condition warn crit) (o0, w0, c0) =
        (o0 ++ ms.filter (okP condition warn crit),
         w0 ++ ms.filter (warnP condition warn crit),
         c0 ++ ms.filter (critP condition crit))
  | [], o0, w0, c0 => by simp
  | m :: t, o0, w0, c0 => by
    by_cases h1 : checkIf condition m.Value crit
    · simp only [List.foldl_cons, filterStep, h1, if_true,
        foldl_filterStep condition warn crit t o0 w0 (c0 ++ [m]),
        List.filter_cons, okP, warnP, critP]
      simp [h1]
    · by_cases h2 : checkIf condition m.Value warn
      · simp only [List.foldl_cons, filterStep, h1, h2, if_true, if_false,
          Bool.false_eq_true,
          foldl_filterStep condition warn crit t o0 (w0 ++ [m]) c0,
          List.filter_cons, okP, warnP, critP]
        simp [h1, h2]
      · simp only [List.foldl_cons, filterStep, h1, h2, if_false,
          Bool.false_eq_true,
          foldl_filterStep condition warn crit t (o0 ++ [m]) w0 c0,
          List.filter_cons, okP, warnP, critP]
        simp [h1, h2]

theorem FilterOffenders_def (ms : Metrics) (condition : String) (warn crit : ℚ) :
    ms.FilterOffenders condition warn crit =
      if condition = CMP_GT then
        ((ms.filter (okP condition warn crit)).insertionSort valueGe,
         (ms.filter (warnP condition warn crit)).insertionSort valueGe,
         (ms.filter (critP condition crit)).insertionSort valueGe)
      else
        ((ms.filter (okP condition warn crit)).insertionSort valueLe,
         (ms.filter (warnP condition warn crit)).insertionSort valueLe,
         (ms.filter (critP condition crit)).insertionSort valueLe) := by
  unfold Metrics.FilterOffenders
  rw [foldl_filterStep]
  simp

theorem mem_FilterOffenders_ok {ms : Metrics} {condition : String} {warn crit : ℚ}
    {m : Metric} :
    m ∈ (ms.FilterOffenders condition warn crit).1 ↔
      m ∈ ms ∧ okP condition warn crit m = true := by
  rw [FilterOffenders_def]
  by_cases h : condition = CMP_GT <;>
    simp [h, List.mem_insertionSort, List.mem_filter]

theorem mem_FilterOffenders_warn {ms : Metrics} {condition : String} {warn crit : ℚ}
    {m : Metric} :
    m ∈ (ms.FilterOffenders condition warn crit).2.1 ↔
      m ∈ ms ∧ warnP condition warn crit m = true := by
  rw [FilterOffenders_def]
  by_cases h : condition = CMP_GT <;>
    simp [h, List.mem_insertionSort, List.mem_filter]

theorem mem_FilterOffenders_crit {ms : Metrics} {condition : String} {warn crit : ℚ}
    {m : Metric} :
    m ∈ (ms.FilterOffenders condition warn crit).2.2 ↔
      m ∈ ms ∧ critP condition crit m = true := by
  rw [FilterOffenders_def]
  by_cases h : condition = CMP_GT <;>
    simp [h, List.mem_insertionSort, List.mem_filter]

theorem three_filter_length (condition : String) (warn crit : ℚ) :
    ∀ ms : Metrics,
      (ms.filter (okP condition warn crit)).length
        + (ms.filter (warnP condition warn crit)).length
        + (ms.filter (critP condition crit)).length = ms.length
  | [] => by simp
  | m :: t => by
    have ih := three_filter_length condition warn crit t
    by_cases h1 : checkIf condition m.Value crit
    · simp only [List.filter_cons, okP, warnP, critP, h1]
      simp only [Bool.not_true, Bool.false_and, Bool.and_false]
      simp [List.length_cons]
      omega
    · by_cases h2 : checkIf condition m.Value warn
      · simp only [List.filter_cons, okP, warnP, critP, h1, h2]
        simp [List.length_cons]
        omega
      · simp only [List.filter_cons, okP, warnP, critP, h1, h2]
        simp [List.length_cons]
        omega

theorem checkIf_eq_false_iff (condition : String) (v t : ℚ) :
    checkIf condition v t = false ↔ ¬ satisfies condition v t := by
  rw [← checkIf_eq_true_iff]
  simp

/-! ## Claim theorems -/

/-- C1: for every data point of the input and every comparison direction with
thresholds warn and crit, `FilterOffenders` places the point in the critical
partition iff its value satisfies the comparison against crit (value ≥ crit in
greater-than mode, value ≤ crit in less-than mode), else in the warning
partition iff it satisfies the comparison against warn, else in the ok
partition; the critical test is made first, so a point meeting both thresholds
lands only in the critical partition. -/
theorem C1_threshold_classification (ms : Metrics) (condition : String)
    (warn crit : ℚ) (m : Metric) (hm : m ∈ ms) :
    (m ∈ (ms.FilterOffenders condition warn crit).2.2 ↔
        satisfies condition m.Value crit)
    ∧ (m ∈ (ms.FilterOffenders condition warn crit).2.1 ↔
        (¬ satisfies condition m.Value crit ∧ satisfies condition m.Value warn))
    ∧ (m ∈ (ms.FilterOffenders condition warn crit).1 ↔
        (¬ satisfies condition m.Value crit ∧ ¬ satisfies condition m.Value warn)) := by
  refine ⟨?_, ?_, ?_⟩
  · rw [mem_FilterOffenders_crit]
    simp [hm, critP, checkIf_eq_true_iff]
  · rw [mem_FilterOffenders_warn]
    simp [hm, warnP, Bool.and_eq_true, checkIf_eq_true_iff, checkIf_eq_false_iff]
  · rw [mem_FilterOffenders_ok]
    simp [hm, okP, Bool.and_eq_true, checkIf_eq_true_iff, checkIf_eq_false_iff]

/-- Witness for C1 at a concrete input: a point at value 42 with warn 30 and
crit 50 in greater-than mode. -/
theorem C1_threshold_classification_witness :
    ((⟨"m1", ⟨2016, 6, 17, 10, 0, 0⟩, 42⟩ : Metric) ∈
        (Metrics.FilterOffenders [⟨"m1", ⟨2016, 6, 17, 10, 0, 0⟩, 42⟩] CMP_GT 30 50).2.2 ↔
      satisfies CMP_GT 42 50)
    ∧ ((⟨"m1", ⟨2016, 6, 17, 10, 0, 0⟩, 42⟩ : Metric) ∈
        (Metrics.FilterOffenders [⟨"m1", ⟨2016, 6, 17, 10, 0, 0⟩, 42⟩] CMP_GT 30 50).2.1 ↔
      (¬ satisfies CMP_GT 42 50 ∧ satisfies CMP_GT 42 30))
    ∧ ((⟨"m1", ⟨2016, 6, 17, 10, 0, 0⟩, 42⟩ : Metric) ∈
        (Metrics.FilterOffenders [⟨"m1", ⟨2016, 6, 17, 10, 0, 0⟩, 42⟩] CMP_GT 30 50).1 ↔
      (¬ satisfies CMP_GT 42 50 ∧ ¬ satisfies CMP_GT 42 30)) :=
  C1_threshold_classification _ CMP_GT 30 50 _ (by decide)

/-- C7: the claim says `Min` and `Max` return the smallest and largest value
present in any non-empty set, including all-negative sets; the code's `Max`
starts its fold accumulator at the float zero value and therefore returns 0 on
the all-negative singleton below (contradicting its own doc comment "returns
the highest value in a slice of metrics"), while `Min` does return the
smallest present value. -/
theorem C7_max_ignores_negatives :
    Metrics.Max [⟨"a.b.c", ⟨2016, 6, 17, 10, 0, 0⟩, -5⟩] = 0
    ∧ Metrics.Min [⟨"a.b.c", ⟨2016, 6, 17, 10, 0, 0⟩, -5⟩] = -5
    ∧ ([⟨"a.b.c", ⟨2016, 6, 17, 10, 0, 0⟩, -5⟩] : Metrics).map Metric.Value = [-5] := by
  refine ⟨by decide, by decide, rfl⟩

/-- C8: avg, max and min of the empty metric set are each exactly 0. -/
theorem C8_empty_set_aggregates :
    Metrics.Avg [] = 0 ∧ Metrics.Max [] = 0 ∧ Metrics.Min [] = 0 :=
  ⟨rfl, rfl, rfl⟩

/-- C10: the claim says the target URL separates its query parameters with a
literal single '&'; the source template `URL_TMPL` contains the five-character
sequence `&amp;` at both separator positions, so the built URL at this
concrete input is the first string below, which differs from the claimed
form. -/
theorem C10_url_uses_amp_entity :
    sprintf_URL_TMPL "http" "example.com" 80 "a.b.c" "301s"
      = "http://example.com:80/render?target=a.b.c&amp;format=csv&amp;from=-301s"
    ∧ "http://example.com:80/render?target=a.b.c&amp;format=csv&amp;from=-301s"
      ≠ "http://example.com:80/render?target=a.b.c&format=csv&from=-301s" :=
  ⟨by decide, by decide⟩

theorem run_check_exitcode_def (ms : Metrics) (condition : String) (warn crit : ℚ) :
    run_check_exitcode ms condition warn crit =
      exit_priority (ms.FilterOffenders condition warn crit).1
        (ms.FilterOffenders condition warn crit).2.1
        (ms.FilterOffenders condition warn crit).2.2 := rfl

theorem exit_priority_cases (o w c : Metrics) :
    (c ≠ [] → exit_priority o w c = E_CRITICAL)
    ∧ (c = [] → w ≠ [] → exit_priority o w c = E_WARNING)
    ∧ (c = [] → w = [] → o ≠ [] → exit_priority o w c = E_OK)
    ∧ (c = [] → w = [] → o = [] → exit_priority o w c = E_UNKNOWN) := by
  unfold exit_priority
  refine ⟨?_, ?_, ?_, ?_⟩
  · intro hc
    rw [if_pos (List.length_pos.mpr hc)]
  · intro hc hw
    subst hc
    simp [List.length_pos.mpr hw]
  · intro hc hw ho
    subst hc
    subst hw
    simp [List.length_pos.mpr ho]
  · intro hc hw ho
    subst hc
    subst hw
    subst ho
    simp

/-- C3: on a successful fetch with no error, the exit code is that of the
worst non-empty partition, in the priority order critical, warning, ok; with
all three empty the status is unknown; the emitted codes are 0/1/2/3 for
OK/WARNING/CRITICAL/UNKNOWN; and with at least one critical and one ok point
the code is 2, never 0. -/
theorem C3_exit_code_priority :
    (E_OK = 0 ∧ E_WARNING = 1 ∧ E_CRITICAL = 2 ∧ E_UNKNOWN = 3)
    ∧ ∀ (ms : Metrics) (condition : String) (warn crit : ℚ),
        ((ms.FilterOffenders condition warn crit).2.2 ≠ [] →
            run_check_exitcode ms condition warn crit = E_CRITICAL)
        ∧ ((ms.FilterOffenders condition warn crit).2.2 = [] →
            (ms.FilterOffenders condition warn crit).2.1 ≠ [] →
            run_check_exitcode ms condition warn crit = E_WARNING)
        ∧ ((ms.FilterOffenders condition warn crit).2.2 = [] →
            (ms.FilterOffenders condition warn crit).2.1 = [] →
            (ms.FilterOffenders condition warn crit).1 ≠ [] →
            run_check_exitcode ms condition warn crit = E_OK)
        ∧ ((ms.FilterOffenders condition warn crit).2.2 = [] →
            (ms.FilterOffenders condition warn crit).2.1 = [] →
            (ms.FilterOffenders condition warn crit).1 = [] →
            run_check_exitcode ms condition warn crit = E_UNKNOWN)
        ∧ ((ms.FilterOffenders condition warn crit).2.2 ≠ [] →
            (ms.FilterOffenders condition warn crit).1 ≠ [] →
            run_check_exitcode ms condition warn crit = E_CRITICAL
              ∧ run_check_exitcode ms condition warn crit ≠ E_OK) := by
  refine ⟨⟨rfl, rfl, rfl, rfl⟩, ?_⟩
  intro ms condition warn crit
  rw [run_check_exitcode_def ms condition warn crit]
  have h := exit_priority_cases (ms.FilterOffenders condition warn crit).1
    (ms.FilterOffenders condition warn crit).2.1
    (ms.FilterOffenders condition warn crit).2.2
  refine ⟨h.1, h.2.1, h.2.2.1, h.2.2.2, ?_⟩
  intro hc _
  refine ⟨h.1 hc, ?_⟩
  rw [h.1 hc]
  decide

/-- Witness for C3 at a concrete input: one critical point (value 60) and one
ok point (value 10) under gt with warn 30 and crit 50. -/
theorem C3_exit_code_priority_witness :
    run_check_exitcode
        [⟨"c1", ⟨2016, 6, 17, 10, 0, 0⟩, 60⟩, ⟨"o1", ⟨2016, 6, 17, 10, 0, 0⟩, 10⟩]
        CMP_GT 30 50 = E_CRITICAL
    ∧ run_check_exitcode
        [⟨"c1", ⟨2016, 6, 17, 10, 0, 0⟩, 60⟩, ⟨"o1", ⟨2016, 6, 17, 10, 0, 0⟩, 10⟩]
        CMP_GT 30 50 ≠ E_OK :=
  ((C3_exit_code_priority.2
      [⟨"c1", ⟨2016, 6, 17, 10, 0, 0⟩, 60⟩, ⟨"o1", ⟨2016, 6, 17, 10, 0, 0⟩, 10⟩]
      CMP_GT 30 50).2.2.2.2) (by decide) (by decide)

theorem okP_warnP_exclusive {condition : String} {warn crit : ℚ} {m : Metric} :
    okP condition warn crit m = true → warnP condition warn crit m = true → False := by
  simp only [okP, warnP, Bool.and_eq_true, Bool.not_eq_true']
  rintro ⟨_, h2⟩ ⟨_, h4⟩
  rw [h2] at h4
  exact Bool.false_ne_true h4

theorem okP_critP_exclusive {condition : String} {warn crit : ℚ} {m : Metric} :
    okP condition warn crit m = true → critP condition crit m = true → False := by
  simp only [okP, critP, Bool.and_eq_true, Bool.not_eq_true']
  rintro ⟨h1, _⟩ h3
  rw [h1] at h3
  exact Bool.false_ne_true h3

theorem warnP_critP_exclusive {condition : String} {warn crit : ℚ} {m : Metric} :
    warnP condition warn crit m = true → critP condition crit m = true → False := by
  simp only [warnP, critP, Bool.and_eq_true, Bool.not_eq_true']
  rintro ⟨h1, _⟩ h3
  rw [h1] at h3
  exact Bool.false_ne_true h3

/-- C4: with all input paths distinct, the three partition sizes sum to the
input size, the partitions are pairwise disjoint by path, and every input
point appears in exactly one partition. -/
theorem C4_partition_completeness (ms : Metrics) (condition : String) (warn crit : ℚ)
    (hpaths : ms.Pairwise (fun a b => a.Path ≠ b.Path)) :
    ((ms.FilterOffenders condition warn crit).1.length
        + (ms.FilterOffenders condition warn crit).2.1.length
        + (ms.FilterOffenders condition warn crit).2.2.length = ms.length)
    ∧ (∀ m₁ ∈ (ms.FilterOffenders condition warn crit).1,
        ∀ m₂ ∈ (ms.FilterOffenders condition warn crit).2.1, m₁.Path ≠ m₂.Path)
    ∧ (∀ m₁ ∈ (ms.FilterOffenders condition warn crit).1,
        ∀ m₂ ∈ (ms.FilterOffenders condition warn crit).2.2, m₁.Path ≠ m₂.Path)
    ∧ (∀ m₁ ∈ (ms.FilterOffenders condition warn crit).2.1,
        ∀ m₂ ∈ (ms.FilterOffenders condition warn crit).2.2, m₁.Path ≠ m₂.Path)
    ∧ (∀ m ∈ ms,
        (m ∈ (ms.FilterOffenders condition warn crit).1
          ∧ m ∉ (ms.FilterOffenders condition warn crit).2.1
          ∧ m ∉ (ms.FilterOffenders condition warn crit).2.2)
        ∨ (m ∉ (ms.FilterOffenders condition warn crit).1
          ∧ m ∈ (ms.FilterOffenders condition warn crit).2.1
          ∧ m ∉ (ms.FilterOffenders condition warn crit).2.2)
        ∨ (m ∉ (ms.FilterOffenders condition warn crit).1
          ∧ m ∉ (ms.FilterOffenders condition warn crit).2.1
          ∧ m ∈ (ms.FilterOffenders condition warn crit).2.2)) := by
  have hsym : Symmetric (fun a b : Metric => a.Path ≠ b.Path) :=
    fun _ _ h e => h e.symm
  have hne : ∀ ⦃a⦄, a ∈ ms → ∀ ⦃b⦄, b ∈ ms → a ≠ b → a.Path ≠ b.Path :=
    List.Pairwise.forall hsym hpaths
  refine ⟨?_, ?_, ?_, ?_, ?_⟩
  · have h3 := three_filter_length condition warn crit ms
    rw [FilterOffenders_def]
    by_cases h : condition = CMP_GT
    · simpa [h, List.length_insertionSort] using h3
    · simpa [h, List.length_insertionSort] using h3
  · intro m₁ h1 m₂ h2
    rw [mem_FilterOffenders_ok] at h1
    rw [mem_FilterOffenders_warn] at h2
    by_cases heq : m₁ = m₂
    · subst heq
      exact absurd h2.2 (fun hw => okP_warnP_exclusive h1.2 hw)
    · exact hne h1.1 h2.1 heq
  · intro m₁ h1 m₂ h2
    rw [mem_FilterOffenders_ok] at h1
    rw [mem_FilterOffenders_crit] at h2
    by_cases heq : m₁ = m₂
    · subst heq
      exact absurd h2.2 (fun hc => okP_critP_exclusive h1.2 hc)
    · exact hne h1.1 h2.1 heq
  · intro m₁ h1 m₂ h2
    rw [mem_FilterOffenders_warn] at h1
    rw [mem_FilterOffenders_crit] at h2
    by_cases heq : m₁ = m₂
    · subst heq
      exact absurd h2.2 (fun hc => warnP_critP_exclusive h1.2 hc)
    · exact hne h1.1 h2.1 heq
  · intro m hm
    by_cases hc : checkIf condition m.Value crit = true
    · right; right
      refine ⟨?_, ?_, ?_⟩
      · rw [mem_FilterOffenders_ok]
        simp [okP, hc]
      · rw [mem_FilterOffenders_warn]
        simp [warnP, hc]
      · rw [mem_FilterOffenders_crit]
        exact ⟨hm, by simp [critP, hc]⟩
    · simp only [Bool.not_eq_true] at hc
      by_cases hw : checkIf condition m.Value warn = true
      · right; left
        refine ⟨?_, ?_, ?_⟩
        · rw [mem_FilterOffenders_ok]
          simp [okP, hc, hw]
        · rw [mem_FilterOffenders_warn]
          exact ⟨hm, by simp [warnP, hc, hw]⟩
        · rw [mem_FilterOffenders_crit]
          simp [critP, hc]
      · simp only [Bool.not_eq_true] at hw
        left
        refine ⟨?_, ?_, ?_⟩
        · rw [mem_FilterOffenders_ok]
          exact ⟨hm, by simp [okP, hc, hw]⟩
        · rw [mem_FilterOffenders_warn]
          simp [warnP, hc, hw]
        · rw [mem_FilterOffenders_crit]
          simp [critP, hc]

/-- Witness for C4 at a concrete input: two points with distinct paths, one
critical and one ok, under gt with warn 30 and crit 50. -/
theorem C4_partition_completeness_witness :
    (Metrics.FilterOffenders
        [⟨"p1", ⟨2016, 6, 17, 10, 0, 0⟩, 60⟩, ⟨"p2", ⟨2016, 6, 17, 10, 0, 0⟩, 10⟩]
        CMP_GT 30 50).1.length
      + (Metrics.FilterOffenders
        [⟨"p1", ⟨2016, 6, 17, 10, 0, 0⟩, 60⟩, ⟨"p2", ⟨2016, 6, 17, 10, 0, 0⟩, 10⟩]
        CMP_GT 30 50).2.1.length
      + (Metrics.FilterOffenders
        [⟨"p1", ⟨2016, 6, 17, 10, 0, 0⟩, 60⟩, ⟨"p2", ⟨2016, 6, 17, 10, 0, 0⟩, 10⟩]
        CMP_GT 30 50).2.2.length
      = ([⟨"p1", ⟨2016, 6, 17, 10, 0, 0⟩, 60⟩, ⟨"p2", ⟨2016, 6, 17, 10, 0, 0⟩, 10⟩] :
          Metrics).length :=
  (C4_partition_completeness
    [⟨"p1", ⟨2016, 6, 17, 10, 0, 0⟩, 60⟩, ⟨"p2", ⟨2016, 6, 17, 10, 0, 0⟩, 10⟩]
    CMP_GT 30 50 (by decide)).1

/-- C5: within each partition returned by `FilterOffenders`, consecutive
values are monotonic according to the direction: non-increasing (worst first)
in greater-than mode, non-decreasing (worst first) otherwise. -/
theorem C5_partition_ordering (ms : Metrics) (condition : String) (warn crit : ℚ) :
    if condition = CMP_GT then
      ((ms.FilterOffenders condition warn crit).1.Chain' (fun a b => b.Value ≤ a.Value)
       ∧ (ms.FilterOffenders condition warn crit).2.1.Chain' (fun a b => b.Value ≤ a.Value)
       ∧ (ms.FilterOffenders condition warn crit).2.2.Chain' (fun a b => b.Value ≤ a.Value))
    else
      ((ms.FilterOffenders condition warn crit).1.Chain' (fun a b => a.Value ≤ b.Value)
       ∧ (ms.FilterOffenders condition warn crit).2.1.Chain' (fun a b => a.Value ≤ b.Value)
       ∧ (ms.FilterOffenders condition warn crit).2.2.Chain' (fun a b => a.Value ≤ b.Value)) := by
  rw [FilterOffenders_def]
  by_cases h : condition = CMP_GT
  · simp only [h, if_pos rfl]
    exact ⟨(List.sorted_insertionSort valueGe _).chain',
      (List.sorted_insertionSort valueGe _).chain',
      (List.sorted_insertionSort valueGe _).chain'⟩
  · simp only [h, if_neg h]
    exact ⟨(List.sorted_insertionSort valueLe _).chain',
      (List.sorted_insertionSort valueLe _).chain',
      (List.sorted_insertionSort valueLe _).chain'⟩

/-! ## Lemmas for the deduplicator -/

theorem mapGet_mapSet_self : ∀ (mm : List (String × Metric)) (p : String) (m : Metric),
    mapGet (mapSet mm p m) p = some m
  | [], p, m => by simp [mapSet, mapGet]
  | e :: t, p, m => by
    by_cases h : e.1 = p
    · simp [mapSet, mapGet, h]
    · simp [mapSet, mapGet, h, mapGet_mapSet_self t p m]

theorem mapGet_mapSet_ne : ∀ (mm : List (String × Metric)) (p q : String) (m : Metric),
    q ≠ p → mapGet (mapSet mm p m) q = mapGet mm q
  | [], p, q, m, h => by
    simp only [mapSet, mapGet]
    rw [if_neg (Ne.symm h)]
  | e :: t, p, q, m, h => by
    by_cases he : e.1 = p
    · simp [mapSet, mapGet, he, Ne.symm h]
    · simp [mapSet, mapGet, he, mapGet_mapSet_ne t p q m h]

theorem mapGet_foldl_parseStep :
    ∀ (recs : List Metric) (mm : List (String × Metric)) (p : String),
      mapGet (recs.foldl parseStep mm) p =
        (recs.filter (fun m => m.Path = p)).foldl
          (fun acc m => match acc with
            | none => some m
            | some cm => some (m.Latest cm)) (mapGet mm p)
  | [], mm, p => by simp
  | m :: t, mm, p => by
    have hstep : mapGet (parseStep mm m) p =
        if m.Path = p then
          (match mapGet mm p with
            | none => some m
            | some cm => some (m.Latest cm))
        else mapGet mm p := by
      by_cases hp : m.Path = p
      · subst hp
        rw [if_pos rfl]
        unfold parseStep
        cases hmg : mapGet mm m.Path with
        | none => rw [mapGet_mapSet_self]
        | some cm => rw [mapGet_mapSet_self]
      · rw [if_neg hp]
        unfold parseStep
        cases hmg : mapGet mm m.Path with
        | none => exact mapGet_mapSet_ne mm m.Path p m (fun e => hp e.symm)
        | some cm => exact mapGet_mapSet_ne mm m.Path p _ (fun e => hp e.symm)
    rw [List.foldl_cons, mapGet_foldl_parseStep t (parseStep mm m) p,
      List.filter_cons, hstep]
    by_cases hp : m.Path = p
    · rw [if_pos hp, if_pos (decide_eq_true hp), List.foldl_cons]
    · rw [if_neg hp, if_neg (by simp [hp])]

theorem mapGet_parseDedup (recs : List Metric) (p : String) :
    mapGet (parseDedup recs) p = keepLatest (recs.filter (fun m => m.Path = p)) := by
  unfold parseDedup keepLatest
  rw [mapGet_foldl_parseStep]
  rfl

theorem Latest_key_ge_arg (m cm : Metric) : cm.TS.key ≤ (m.Latest cm).TS.key := by
  unfold Metric.Latest
  split
  · next h =>
    have h' : cm.TS.key < m.TS.key := of_decide_eq_true h
    exact Nat.le_of_lt h'
  · exact Nat.le_refl _

theorem Latest_key_ge_rec (m cm : Metric) : m.TS.key ≤ (m.Latest cm).TS.key := by
  unfold Metric.Latest
  split
  · exact Nat.le_refl _
  · next h =>
    have h' : ¬ cm.TS.key < m.TS.key := by simpa [DateTime.After] using h
    omega

theorem Latest_eq_or (m cm : Metric) : m.Latest cm = m ∨ m.Latest cm = cm := by
  unfold Metric.Latest
  split
  · exact Or.inl rfl
  · exact Or.inr rfl

theorem foldl_keepLatest_spec :
    ∀ (l : List Metric) (cm : Metric),
      ∃ m, l.foldl (fun acc m => match acc with
            | none => some m
            | some cm => some (m.Latest cm)) (some cm) = some m
        ∧ (m = cm ∨ m ∈ l) ∧ cm.TS.key ≤ m.TS.key
        ∧ ∀ m' ∈ l, m'.TS.key ≤ m.TS.key
  | [], cm => ⟨cm, rfl, Or.inl rfl, Nat.le_refl _, by simp⟩
  | a :: t, cm => by
    obtain ⟨m, hfold, hmem, hkey, hall⟩ := foldl_keepLatest_spec t (a.Latest cm)
    refine ⟨m, hfold, ?_, ?_, ?_⟩
    · rcases hmem with h | h
      · rcases Latest_eq_or a cm with h2 | h2
        · rw [h2] at h
          exact Or.inr (h ▸ List.mem_cons_self a t)
        · rw [h2] at h
          exact Or.inl h
      · exact Or.inr (List.mem_cons_of_mem a h)
    · exact Nat.le_trans (Latest_key_ge_arg a cm) hkey
    · intro m' hm'
      rcases List.mem_cons.mp hm' with h | h
      · subst h
        exact Nat.le_trans (Latest_key_ge_rec m' cm) hkey
      · exact hall m' h

theorem keepLatest_spec (l : List Metric) (m : Metric) (h : keepLatest l = some m) :
    m ∈ l ∧ ∀ m' ∈ l, m'.TS.key ≤ m.TS.key := by
  cases l with
  | nil => simp [keepLatest] at h
  | cons a t =>
    obtain ⟨m0, hfold, hmem, hkey, hall⟩ := foldl_keepLatest_spec t a
    have heq : some m = some m0 := by
      rw [← h]
      exact hfold
    obtain rfl := Option.some.inj heq
    constructor
    · rcases hmem with h2 | h2
      · exact h2 ▸ List.mem_cons_self a t
      · exact List.mem_cons_of_mem a h2
    · intro m' hm'
      rcases List.mem_cons.mp hm' with h2 | h2
      · exact h2 ▸ hkey
      · exact hall m' h2

/-- C2: over any stream of successfully decoded records, the deduplicating
map retains for each path exactly one point, a record of that path whose
timestamp no other record of the path strictly exceeds; and when a newly
decoded point's timestamp is exactly equal to the stored point's timestamp,
the stored (earlier-inserted) point is retained and the newcomer discarded. -/
theorem C2_dedup_keeps_latest :
    (∀ (recs : List Metric) (p : String) (m : Metric),
        mapGet (parseDedup recs) p = some m →
          m ∈ recs ∧ m.Path = p
            ∧ ∀ m' ∈ recs, m'.Path = p → m'.TS.After m.TS = false)
    ∧ ∀ (mm : List (String × Metric)) (m cm : Metric),
        mapGet mm m.Path = some cm → m.TS = cm.TS →
          mapGet (parseStep mm m) m.Path = some cm := by
  constructor
  · intro recs p m h
    rw [mapGet_parseDedup] at h
    obtain ⟨hmem, hall⟩ := keepLatest_spec _ _ h
    have hmem' := List.mem_filter.mp hmem
    refine ⟨hmem'.1, of_decide_eq_true hmem'.2, ?_⟩
    intro m' hm' hp'
    have hk : m'.TS.key ≤ m.TS.key :=
      hall m' (List.mem_filter.mpr ⟨hm', by simp [hp']⟩)
    simp only [DateTime.After, decide_eq_false_iff_not]
    omega
  · intro mm m cm hget hts
    have hfalse : m.TS.After cm.TS = false := by
      simp [DateTime.After, hts]
    have hL : m.Latest cm = cm := by
      unfold Metric.Latest
      rw [hfalse]
      simp
    unfold parseStep
    rw [hget]
    show mapGet (mapSet mm m.Path (m.Latest cm)) m.Path = some cm
    rw [hL]
    exact mapGet_mapSet_self mm m.Path cm

/-- Witness for C2 at concrete inputs: two records sharing a path five seconds
apart, and one exact-tie insertion. -/
theorem C2_dedup_keeps_latest_witness :
    ((⟨"a.b.c", ⟨2016, 6, 17, 10, 0, 0⟩, 10⟩ : Metric).TS.After
        (⟨"a.b.c", ⟨2016, 6, 17, 10, 0, 5⟩, 20⟩ : Metric).TS = false)
    ∧ mapGet (parseStep [("a.b.c", ⟨"a.b.c", ⟨2016, 6, 17, 10, 0, 0⟩, 10⟩)]
          ⟨"a.b.c", ⟨2016, 6, 17, 10, 0, 0⟩, 99⟩)
        "a.b.c" = some ⟨"a.b.c", ⟨2016, 6, 17, 10, 0, 0⟩, 10⟩ :=
  ⟨(C2_dedup_keeps_latest.1
      [⟨"a.b.c", ⟨2016, 6, 17, 10, 0, 0⟩, 10⟩, ⟨"a.b.c", ⟨2016, 6, 17, 10, 0, 5⟩, 20⟩]
      "a.b.c" ⟨"a.b.c", ⟨2016, 6, 17, 10, 0, 5⟩, 20⟩ (by decide)).2.2
      ⟨"a.b.c", ⟨2016, 6, 17, 10, 0, 0⟩, 10⟩ (by decide) (by decide),
   C2_dedup_keeps_latest.2 [("a.b.c", ⟨"a.b.c", ⟨2016, 6, 17, 10, 0, 0⟩, 10⟩)]
      ⟨"a.b.c", ⟨2016, 6, 17, 10, 0, 0⟩, 99⟩ ⟨"a.b.c", ⟨2016, 6, 17, 10, 0, 0⟩, 10⟩
      (by decide) rfl⟩

/-- C9: decoding one CSV record fails iff the record does not have exactly 3
fields, or field 0 (path) is empty, or field 1 (timestamp) does not parse
under the fixed format, or field 2 (value) is empty or not parseable as a
float; otherwise it returns the data point built from path, parsed timestamp
and parsed value. -/
theorem C9_decode_contract (rec : List String) :
    ((∃ e, NewMetricFromCSV rec = Except.error e) ↔
      (rec.length ≠ 3 ∨ ∃ p t v, rec = [p, t, v] ∧
        (p = "" ∨ timeParse t = none ∨ v = "" ∨ parseFloat v = none)))
    ∧ ∀ p t v dt q, rec = [p, t, v] → p ≠ "" → timeParse t = some dt →
        v ≠ "" → parseFloat v = some q →
        NewMetricFromCSV rec = Except.ok (NewMetric p dt q) := by
  rcases rec with _ | ⟨p, _ | ⟨t, _ | ⟨v, _ | ⟨x, rest⟩⟩⟩⟩
  · refine ⟨?_, ?_⟩
    · constructor
      · intro _
        left
        simp
      · intro _
        exact ⟨"CSV record length != 3", rfl⟩
    · intro p' t' v' dt q h
      simp at h
  · refine ⟨?_, ?_⟩
    · constructor
      · intro _
        left
        simp
      · intro _
        exact ⟨"CSV record length != 3", rfl⟩
    · intro p' t' v' dt q h
      simp at h
  · refine ⟨?_, ?_⟩
    · constructor
      · intro _
        left
        simp
      · intro _
        exact ⟨"CSV record length != 3", rfl⟩
    · intro p' t' v' dt q h
      simp at h
  · refine ⟨?_, ?_⟩
    · by_cases hp : p = ""
      · simp [NewMetricFromCSV, hp]
        exact ⟨"", t, v, ⟨rfl, rfl, rfl⟩, Or.inl rfl⟩
      · cases ht : timeParse t with
        | none =>
          simp [NewMetricFromCSV, hp, ht]
          exact ⟨p, t, v, ⟨rfl, rfl, rfl⟩, Or.inr (Or.inl ht)⟩
        | some dt =>
          by_cases hv : v = ""
          · simp [NewMetricFromCSV, hp, ht, hv]
            exact ⟨p, t, "", ⟨rfl, rfl, rfl⟩, Or.inr (Or.inr (Or.inl rfl))⟩
          · cases hq : parseFloat v with
            | none =>
              simp [NewMetricFromCSV, hp, ht, hv, hq]
              exact ⟨p, t, v, ⟨rfl, rfl, rfl⟩, Or.inr (Or.inr (Or.inr hq))⟩
            | some q => simp [NewMetricFromCSV, hp, ht, hv, hq]
    · intro p' t' v' dt q h hp ht hv hq
      obtain ⟨rfl, rfl, rfl⟩ : p = p' ∧ t = t' ∧ v = v' := by
        simpa using h
      simp [NewMetricFromCSV, hp, ht, hv, hq]
  · refine ⟨?_, ?_⟩
    · constructor
      · intro _
        left
        simp
      · intro _
        exact ⟨"CSV record length != 3", rfl⟩
    · intro p' t' v' dt q h
      simp at h

/-- Witness for C9: decoding the concrete record
("a.b.c", "2016-06-17 10:00:00", "42.5"). -/
theorem C9_decode_contract_witness :
    NewMetricFromCSV ["a.b.c", "2016-06-17 10:00:00", "42.5"]
      = Except.ok (NewMetric "a.b.c" ⟨2016, 6, 17, 10, 0, 0⟩ (mkRat 425 10)) :=
  (C9_decode_contract ["a.b.c", "2016-06-17 10:00:00", "42.5"]).2
    "a.b.c" "2016-06-17 10:00:00" "42.5" ⟨2016, 6, 17, 10, 0, 0⟩ (mkRat 425 10)
    rfl (by decide) (by decide) (by decide) (by decide)

/-- C6 counterexample: on the claimed scenario (CSV body
"a.b.c,2016-06-17 10:00:00,42.5\n", direction gt, warn 30, crit 50) the single
decoded point has value 42.5, and 42.5 ≥ 30, so the code classifies it
WARNING, not OK: the ok partition is empty, the warning partition holds the
point, and the run exits with code 1, not 0. -/
theorem C6_scenario_counterexample :
    (Metrics.FilterOffenders (parseBody "a.b.c,2016-06-17 10:00:00,42.5\n")
        CMP_GT 30 50).1.length = 0
    ∧ (Metrics.FilterOffenders (parseBody "a.b.c,2016-06-17 10:00:00,42.5\n")
        CMP_GT 30 50).2.1.length = 1
    ∧ run_check_exitcode (parseBody "a.b.c,2016-06-17 10:00:00,42.5\n")
        CMP_GT 30 50 = E_WARNING
    ∧ run_check_exitcode (parseBody "a.b.c,2016-06-17 10:00:00,42.5\n")
        CMP_GT 30 50 ≠ E_OK :=
  ⟨by decide, by decide, by decide, by decide⟩

/-- C6 amended: for the scenario body with direction gt, warn 30 and crit 50,
the run classifies exactly one WARNING point, exits with code 1 (WARNING),
and — for every round-trip time and timeout — the summary message contains
"1 metrics are above the warning threshold of 30.00". -/
theorem C6_amended_scenario (rt tmout : ℚ) :
    (Metrics.FilterOffenders (parseBody "a.b.c,2016-06-17 10:00:00,42.5\n")
        CMP_GT 30 50).2.1.length = 1
    ∧ run_check_exitcode (parseBody "a.b.c,2016-06-17 10:00:00,42.5\n")
        CMP_GT 30 50 = E_WARNING
    ∧ strContains
        (nagios_msg_warning CMP_GT 30 50
          (Metrics.FilterOffenders (parseBody "a.b.c,2016-06-17 10:00:00,42.5\n")
            CMP_GT 30 50).2.1
          rt tmout)
        "1 metrics are above the warning threshold of 30.00" := by
  refine ⟨by decide, by decide, ?_⟩
  have hfront :
      toString (Metrics.FilterOffenders (parseBody "a.b.c,2016-06-17 10:00:00,42.5\n")
          CMP_GT 30 50).2.1.length
        ++ " metrics are " ++ direction_word CMP_GT ++ " the " ++ "warning"
        ++ " threshold of " ++ fmtFixed 2 30 ++ " "
      = "1 metrics are above the warning threshold of 30.00" ++ " " := by decide
  unfold strContains nagios_msg_warning
  rw [hfront, String.append_assoc]
  exact ⟨"", _, by rw [String.empty_append]⟩
